import Mathlib

/-!
Verification of the RelSync version-inference and bump-aggregation engine.

The definitions below are shallow embeddings of the Python source:
* `src/relsync/semver.py` — semver regex, `parse_version`, `get_version_string`,
  `version_bump`, `bump_version`, `bump_priority`;
* `src/relsync/cli.py` — the standalone copies used by `fetch_updates`
  (naive `parse_version`, `version_bump`, `bump_version`), the per-entity
  classification, the dominant-bump aggregation and the parent ("repo")
  bump coarsening;
* `src/relsync/helm.py` — `get_current_status_from_parent_chart` shares the
  aggregation and coarsening formulas embedded here.

Strings are modelled as `String` / `List Char`; Python exceptions
(`ValueError` from `int(...)` and from the semver parser, tuple-unpacking
errors) are modelled with `Option`, `none` meaning the call raises.
-/

namespace RelSync

/-- Character class `[0-9a-zA-Z-]` of the semver regex. -/
def isAlnumHyphen (c : Char) : Bool :=
  c.isDigit || c.isAlpha || c = '-'

/-- Split a character list on every occurrence of `sep`
(the list of groups, like Python `str.split`). -/
def splitOnC (sep : Char) : List Char → List (List Char)
  | [] => [[]]
  | c :: cs =>
    match splitOnC sep cs with
    | [] => [[]]
    | g :: gs => if c = sep then [] :: g :: gs else (c :: g) :: gs

/-- Split at the first occurrence of `sep`: the part before it and,
when `sep` occurs, the part after it. -/
def splitFirstC (sep : Char) : List Char → List Char × Option (List Char)
  | [] => ([], none)
  | c :: cs =>
    if c = sep then ([], some cs)
    else
      let r := splitFirstC sep cs
      (c :: r.1, r.2)

/-- The numeric-component alternative `0|[1-9]\d*` of the semver regex:
digits, nonempty, no leading zero unless the component is exactly `0`. -/
def isNumericIdent (cs : List Char) : Bool :=
  !cs.isEmpty && cs.all (·.isDigit) && (cs.length = 1 || !(cs.head? = some '0'))

/-- A prerelease dot-segment `0|[1-9]\d*|\d*[a-zA-Z-][0-9a-zA-Z-]*`:
over `[0-9a-zA-Z-]`, either a numeric identifier without leading zero or a
segment containing at least one non-digit. -/
def isPrereleaseIdent (cs : List Char) : Bool :=
  !cs.isEmpty && cs.all isAlnumHyphen &&
    (cs.any (fun c => !c.isDigit) || isNumericIdent cs)

/-- A build-metadata dot-segment `[0-9a-zA-Z-]+`. -/
def isBuildIdent (cs : List Char) : Bool :=
  !cs.isEmpty && cs.all isAlnumHyphen

/-- Decimal value of a digit string, as Python `int` computes it on the
regex-validated digit groups. -/
def parseNatChars (cs : List Char) : Nat :=
  cs.foldl (fun acc c => acc * 10 + (c.toNat - 48)) 0

/-- The value object produced by `semver.parse_version` with `group=None`
plus the two optional string groups; `buildmetadata` never participates in
comparison or bump logic. -/
structure SemVer where
  major : Nat
  minor : Nat
  patch : Nat
  prerelease : Option String
  buildmetadata : Option String
deriving DecidableEq, Repr

/-- The named groups of a successful `semver_regex.match`. -/
structure SemverGroups where
  major : List Char
  minor : List Char
  patch : List Char
  prerelease : Option (List Char)
  buildmetadata : Option (List Char)
deriving DecidableEq, Repr

/-- The optional-`v`-prefix group of the semver regex: consume a single
leading `v` when present. -/
def stripV (input : List Char) : List Char :=
  if input.head? = some 'v' then input.tail else input

/-- The regex is anchored with `$`, which in Python also matches just
before one trailing newline, so at most one trailing newline is
tolerated. -/
def stripNl (cs : List Char) : List Char :=
  if cs.getLast? = some '\n' then cs.dropLast else cs

/-- Validity of the optional prerelease group: every dot-segment is a
prerelease identifier. -/
def preOkC (pre : Option (List Char)) : Bool :=
  match pre with
  | none => true
  | some p => (splitOnC '.' p).all isPrereleaseIdent

/-- Validity of the optional build-metadata group: every dot-segment is a
build identifier. -/
def buildOkC (build : Option (List Char)) : Bool :=
  match build with
  | none => true
  | some b => (splitOnC '.' b).all isBuildIdent

/-- Body of the semver regex after the prefix: three dot-separated numeric
components without leading zeros, an optional `-prerelease` and an optional
`+buildmetadata`.  Because the core may contain only digits and dots and
neither the core nor the prerelease may contain `+`, the first `-` after
the core (resp. the first `+`) deterministically starts the prerelease
(resp. the build metadata), so this split-based matcher is equivalent to
the backtracking regex. -/
def semver_match_body (cs : List Char) : Option SemverGroups :=
  match splitOnC '.' (splitFirstC '-' (splitFirstC '+' cs).1).1 with
  | [ma, mi, pa] =>
    if isNumericIdent ma && isNumericIdent mi && isNumericIdent pa then
      if preOkC (splitFirstC '-' (splitFirstC '+' cs).1).2 &&
          buildOkC (splitFirstC '+' cs).2 then
        some ⟨ma, mi, pa, (splitFirstC '-' (splitFirstC '+' cs).1).2,
              (splitFirstC '+' cs).2⟩
      else none
    else none
  | _ => none

/-- Embedding of `semver_regex.match` (src/relsync/semver.py lines 7-14):
strip the optional `v` prefix and the `$`-tolerated trailing newline, then
match the body. -/
def semver_regex_match (input : List Char) : Option SemverGroups :=
  semver_match_body (stripNl (stripV input))

/-- Embedding of `semver.parse_version` (src/relsync/semver.py lines 24-48)
with `group=None`: match the regex (a failed match raises `ValueError`,
modelled as `none`), convert the three numeric groups with `int` and keep
the optional prerelease/buildmetadata groups as strings. -/
def parse_version (s : String) : Option SemVer :=
  (semver_regex_match s.toList).map fun g =>
    ⟨parseNatChars g.major, parseNatChars g.minor, parseNatChars g.patch,
     g.prerelease.map (fun p => String.mk p),
     g.buildmetadata.map (fun b => String.mk b)⟩

/-- The decimal digit character for `d < 10`, as Python prints it. -/
def digitChar : Nat → Char
  | 0 => '0'
  | 1 => '1'
  | 2 => '2'
  | 3 => '3'
  | 4 => '4'
  | 5 => '5'
  | 6 => '6'
  | 7 => '7'
  | 8 => '8'
  | _ => '9'

/-- Decimal digits of `n`, least significant first, with explicit fuel so
that the kernel can evaluate it; `natToRevDigitsFuel (n+1) n` is total. -/
def natToRevDigitsFuel : Nat → Nat → List Char
  | 0, _ => []
  | f + 1, n =>
    if n < 10 then [digitChar n]
    else digitChar (n % 10) :: natToRevDigitsFuel f (n / 10)

/-- Decimal digits of `n`, least significant first. -/
def natToRevDigits (n : Nat) : List Char :=
  natToRevDigitsFuel (n + 1) n

/-- Decimal digits of `n`, most significant first: Python `str` on a
non-negative `int`. -/
def natToChars (n : Nat) : List Char :=
  (natToRevDigits n).reverse

/-- Python `str` on a non-negative `int`, as a `String`. -/
def natToStr (n : Nat) : String :=
  String.mk (natToChars n)

/-- Embedding of `semver.get_version_string` (src/relsync/semver.py lines
50-52): parse and re-join the `(major, minor, patch)` tuple with dots.  The
prerelease and build groups are not part of the tuple, so they are dropped. -/
def get_version_string (version : String) : Option String :=
  (parse_version version).map fun v =>
    natToStr v.major ++ "." ++ natToStr v.minor ++ "." ++ natToStr v.patch

/-- Embedding of `semver.version_bump` (src/relsync/semver.py lines 55-66):
parse both versions (a parse failure raises, modelled as the outer `none`)
and report the first strictly increased component, scanning major, minor,
patch in that order; otherwise the bump is Python `None` (inner `none`). -/
def version_bump (old new : String) : Option (Option String) :=
  match parse_version old, parse_version new with
  | some o, some n =>
    some (if n.major > o.major then some "major"
          else if n.minor > o.minor then some "minor"
          else if n.patch > o.patch then some "patch"
          else none)
  | _, _ => none

/-- Embedding of `semver.bump_version` (src/relsync/semver.py lines 69-78):
parse the version (raising on failure even when `bump` is `None`), then
rebuild a clean `major.minor.patch` string for the three bump kinds and
return the input string unchanged for any other `bump` value. -/
def bump_version (version : String) (bump : Option String) : Option String :=
  match parse_version version with
  | none => none
  | some v =>
    if bump = some "major" then some (natToStr (v.major + 1) ++ ".0.0")
    else if bump = some "minor" then
      some (natToStr v.major ++ "." ++ natToStr (v.minor + 1) ++ ".0")
    else if bump = some "patch" then
      some (natToStr v.major ++ "." ++ natToStr v.minor ++ "."
            ++ natToStr (v.patch + 1))
    else some version

/-- Embedding of the `bump_priority` dict (src/relsync/semver.py line 5 and
src/relsync/cli.py line 181): `{"patch": 1, "minor": 2, "major": 3}`.  The
source indexes it only with one of its three keys; other keys would raise
`KeyError` and are mapped to `0` here, a value the dict never holds. -/
def bump_priority (s : String) : Nat :=
  if s = "patch" then 1 else if s = "minor" then 2
  else if s = "major" then 3 else 0

/-- Characters Python `int(str)` strips around a decimal literal (the ASCII
whitespace subset; the further Unicode space characters accepted by CPython
do not occur in version strings). -/
def isPySpace (c : Char) : Bool :=
  c = ' ' || c = '\t' || c = '\n' || c = '\r' || c = '\x0b' || c = '\x0c'

/-- Digit run of a Python decimal literal: nonempty digits, optionally
separated by single underscores (no leading, trailing or doubled
underscore). -/
def pyIntDigits : List Char → Bool
  | [] => false
  | [c] => c.isDigit
  | c :: '_' :: rest => c.isDigit && pyIntDigits rest
  | c :: rest => c.isDigit && pyIntDigits rest

/-- Value of a Python decimal digit run, underscores skipped. -/
def pyIntValue (cs : List Char) : Nat :=
  parseNatChars (cs.filter (fun c => !(c = '_')))

/-- Model of Python `int(s)` for a decimal string: strip surrounding
whitespace, accept one optional sign, then a digit run; anything else raises
`ValueError`, modelled as `none`. -/
def pyIntChars (cs : List Char) : Option Int :=
  let cs := (((cs.dropWhile isPySpace).reverse.dropWhile isPySpace).reverse)
  match cs with
  | '+' :: rest => if pyIntDigits rest then some (pyIntValue rest) else none
  | '-' :: rest => if pyIntDigits rest then some (-(pyIntValue rest : Int)) else none
  | rest => if pyIntDigits rest then some (pyIntValue rest) else none

/-- Embedding of the standalone `cli.parse_version` (src/relsync/cli.py
lines 149-152): split on every dot and apply `int` to each part, with no
semver validation at all; an unparsable part raises `ValueError` (`none`). -/
def parse_version_cli (version : String) : Option (List Int) :=
  (splitOnC '.' version.toList).mapM pyIntChars

/-- Embedding of `cli.version_bump` (src/relsync/cli.py lines 155-166):
parse both versions with the naive splitter, unpack each into exactly three
components (any other arity raises, `none`) and report the first strictly
increased component. -/
def version_bump_cli (old new : String) : Option (Option String) :=
  match parse_version_cli old, parse_version_cli new with
  | some [oma, omi, opa], some [nma, nmi, npa] =>
    some (if nma > oma then some "major"
          else if nmi > omi then some "minor"
          else if npa > opa then some "patch"
          else none)
  | _, _ => none

/-- Python `str` on an `int`. -/
def intToStr (i : Int) : String :=
  if i < 0 then "-" ++ natToStr i.natAbs else natToStr i.natAbs

/-- Embedding of `cli.bump_version` (src/relsync/cli.py lines 169-178): the
same formatting as `semver.bump_version` but over the naive three-component
parse. -/
def bump_version_cli (version : String) (bump : String) : Option String :=
  match parse_version_cli version with
  | some [ma, mi, pa] =>
    some (if bump = "major" then intToStr (ma + 1) ++ ".0.0"
          else if bump = "minor" then intToStr ma ++ "." ++ intToStr (mi + 1) ++ ".0"
          else if bump = "patch" then
            intToStr ma ++ "." ++ intToStr mi ++ "." ++ intToStr (pa + 1)
          else version)
  | _ => none

/-- Python truthiness of the optional version strings read from charts:
`None` and the empty string are falsy. -/
def truthy : Option String → Bool
  | none => false
  | some s => !s.isEmpty

/-- The externally supplied per-entity version strings consumed by
`fetch_updates`: the chart version at the currently checked-out tag and the
chart version at the suggested tag (either may be absent). -/
structure EntityInput where
  current_version : Option String
  suggested_version : Option String
deriving DecidableEq, Repr

/-- Embedding of the per-entity classification in `cli.fetch_updates`
(src/relsync/cli.py lines 227-234): no suggested version means no bump; a
suggested version with no (falsy) current version forces a `"major"` bump
without even parsing the suggested version; otherwise classify with
`version_bump`.  The outer `none` models a `ValueError` escaping from
`version_bump`. -/
def entity_bump (e : EntityInput) : Option (Option String) :=
  match e.suggested_version with
  | none => some none
  | some sv =>
    if sv.isEmpty then some none
    else
      match e.current_version with
      | none => some (some "major")
      | some cv =>
        if cv.isEmpty then some (some "major")
        else version_bump_cli cv sv

/-- The per-entity bumps collected by the `fetch_updates` loop, in order;
the whole computation aborts at the first entity whose classification
raises. -/
def collect_bumps : List EntityInput → Option (List (Option String))
  | [] => some []
  | e :: es =>
    match entity_bump e, collect_bumps es with
    | some b, some bs => some (b :: bs)
    | _, _ => none

/-- Embedding of the `global_bump_level` accumulation in `cli.fetch_updates`
(src/relsync/cli.py lines 189, 233-234): starting from `0`, fold in
`bump_priority[bump]` for every truthy per-entity bump. -/
def global_bump_level (bumps : List (Option String)) : Nat :=
  bumps.foldl
    (fun acc b =>
      match b with
      | some s => if s.isEmpty then acc else max acc (bump_priority s)
      | none => acc)
    0

/-- Embedding of the reverse lookup in `cli.fetch_updates` (src/relsync/
cli.py lines 248-252) and `helm.get_current_status_from_parent_chart`
(src/relsync/helm.py lines 63-67): scan `bump_priority` in insertion order
(`patch`, `minor`, `major`) for the key whose value equals the level;
level `0` matches no key, leaving `None`. -/
def bump_type_of_level (level : Nat) : Option String :=
  if level = 1 then some "patch"
  else if level = 2 then some "minor"
  else if level = 3 then some "major"
  else none

/-- The dominant-bump aggregation of `fetch_updates`: severity-maximum of
the per-entity bumps via `global_bump_level`, mapped back to its name. -/
def dominant (bumps : List (Option String)) : Option String :=
  bump_type_of_level (global_bump_level bumps)

/-- Embedding of the parent-bump coarsening `repo_bump = "minor" if
bump_type and bump_priority[bump_type] > 2 else "patch"` (src/relsync/cli.py
line 256 and src/relsync/helm.py line 69). -/
def coarsen (bump_type : Option String) : String :=
  match bump_type with
  | some b => if !b.isEmpty && bump_priority b > 2 then "minor" else "patch"
  | none => "patch"

/-- The parent ("repo") summary returned by `fetch_updates` and
`get_current_status_from_parent_chart`: current chart version, suggested
chart version and the coarsened chart bump. -/
structure ParentInfo where
  current : Option String
  suggested : Option String
  chart_bump : String
deriving DecidableEq, Repr

/-- Embedding of the version logic of `cli.fetch_updates` (src/relsync/
cli.py lines 186-265).  Tag listing and YAML reading are I/O collaborators;
they are modelled as the already-extracted `EntityInput` version strings and
the parent chart's current version.  Per entity the bump is classified, the
maximum priority is accumulated, the parent bump is coarsened, and the
parent's suggested version is `bump_version(repo_current, repo_bump)` when
some bump was detected and the unchanged current version otherwise.  `none`
models an uncaught exception (a `ValueError` from parsing, or the
`AttributeError` of `bump_version(None, ...)` when the parent chart version
is absent while a bump is due). -/
def fetch_updates_core (entities : List EntityInput)
    (repo_current : Option String) :
    Option (List (Option String) × ParentInfo) :=
  match collect_bumps entities with
  | none => none
  | some bumps =>
    let bump_type := dominant bumps
    let repo_bump := coarsen bump_type
    if truthy bump_type then
      match repo_current with
      | none => none
      | some rc =>
        (bump_version_cli rc repo_bump).map fun s =>
          (bumps, ⟨repo_current, some s, repo_bump⟩)
    else some (bumps, ⟨repo_current, repo_current, repo_bump⟩)

/-- Modelled from the spec: the semantic equality of spec section 3, used
only to state claims (the source defines no comparison helper): two
versions are equal iff major, minor, patch and prerelease all agree, build
metadata ignored. -/
def sem_eq (a b : SemVer) : Bool :=
  a.major = b.major && a.minor = b.minor && a.patch = b.patch &&
    a.prerelease = b.prerelease

/-- Strict lexicographic order on the release cores `(major, minor, patch)`
— the spec section 3 total order restricted to the three numeric
components. -/
def coreLtB (a b : SemVer) : Bool :=
  a.major < b.major ||
    (a.major = b.major &&
      (a.minor < b.minor || (a.minor = b.minor && a.patch < b.patch)))

/-- ASCII lexicographic order on character lists (a strict prefix is
lower). -/
def lexLt : List Char → List Char → Bool
  | [], [] => false
  | [], _ :: _ => true
  | _ :: _, [] => false
  | a :: as, b :: bs => a < b || (a = b && lexLt as bs)

/-- Modelled from the spec: precedence of one prerelease identifier (spec
section 3): numeric identifiers compare numerically and are lower than
non-numeric ones; non-numeric identifiers compare as ASCII strings. -/
def identLt (a b : List Char) : Bool :=
  match a.all (·.isDigit), b.all (·.isDigit) with
  | true, true => parseNatChars a < parseNatChars b
  | true, false => true
  | false, true => false
  | false, false => lexLt a b

/-- Modelled from the spec: precedence of prerelease identifier sequences
(spec section 3): identifier-wise, a strict prefix being lower. -/
def identSeqLt : List (List Char) → List (List Char) → Bool
  | [], [] => false
  | [], _ :: _ => true
  | _ :: _, [] => false
  | a :: as, b :: bs => identLt a b || (a = b && identSeqLt as bs)

/-- Modelled from the spec: the full spec section 3 strict order, used only
to state claims: compare release cores numerically; at equal cores a
version with a prerelease is lower than one without; two prereleases
compare per identifier-sequence precedence. -/
def semverLtB (a b : SemVer) : Bool :=
  coreLtB a b ||
    (a.major = b.major && a.minor = b.minor && a.patch = b.patch &&
      match a.prerelease, b.prerelease with
      | some pa, some pb =>
        identSeqLt (splitOnC '.' pa.toList) (splitOnC '.' pb.toList)
      | some _, none => true
      | none, _ => false)

/-- Modelled from the spec: the pre-release train decomposition of spec
section 4.4 case 3, which is part of the pre-release sequencer missing from
src/ (only its caller `apply_distribution_updates` in src/relsync/
distribution.py takes a `prerelease_identifier`): split a prerelease on
dots; when the trailing dot-segment is a numeric counter, the train value is
the rest and the counter its value, otherwise the whole prerelease is the
value and the counter defaults to `0`. -/
def train_of_prerelease (pre : List Char) : List Char × Nat :=
  let segs := splitOnC '.' pre
  if 2 ≤ segs.length then
    match segs.getLast? with
    | some lastSeg =>
      if !lastSeg.isEmpty && lastSeg.all (·.isDigit) then
        (List.intercalate ['.'] segs.dropLast, parseNatChars lastSeg)
      else (pre, 0)
    | none => (pre, 0)
  else (pre, 0)

/-- Modelled from the spec: the render of spec section 4.1, needed by the
pre-release sequencer missing from src/ (the source's `get_version_string`
renders the core only): `"major.minor.patch"` with `-prerelease` appended
when present, build metadata dropped. -/
def render_spec (v : SemVer) : String :=
  natToStr v.major ++ "." ++ natToStr v.minor ++ "." ++ natToStr v.patch ++
    (match v.prerelease with
     | some p => "-" ++ p
     | none => "")

/-- Modelled from the spec: the pre-release sequencer of spec section 4.4,
missing from src/.  Given the parent's current version, the freshly
computed candidate (always a clean release) and an optional identifier:
no identifier renders the candidate as-is; a candidate whose release core
is greater than the current one starts a new train `candidate-identifier`;
otherwise a current prerelease whose train value equals the identifier is
incremented on the current release core; any other case falls back to a new
train.  The greater-than test compares the release cores, as spec section 8
scenario B requires (candidate `0.6.0` is "not greater than" current
`0.6.0-rc` there). -/
def prerelease_sequencer (current candidate : SemVer)
    (identifier : Option String) : String :=
  match identifier with
  | none => render_spec candidate
  | some id =>
    if coreLtB current candidate then
      render_spec { candidate with prerelease := some id }
    else
      match current.prerelease with
      | some pre =>
        let train := train_of_prerelease pre.toList
        if train.1 = id.toList then
          render_spec ⟨current.major, current.minor, current.patch,
                       some (id ++ "." ++ natToStr (train.2 + 1)), none⟩
        else render_spec { candidate with prerelease := some id }
      | none => render_spec { candidate with prerelease := some id }

/-- Modelled from the spec: the `BumpKind` severity ordering of spec
section 3, `none < patch < minor < major`, as the numbers 0-3 (that is,
`bump_priority` extended by `none ↦ 0`); used to state the aggregation
claims. -/
def severity : Option String → Nat
  | none => 0
  | some s => if s.isEmpty then 0 else bump_priority s

/-- The four `BumpKind` values of the spec as the code represents them:
Python `None` or one of the three `bump_priority` keys. -/
def IsBumpKind (b : Option String) : Prop :=
  b = none ∨ b = some "patch" ∨ b = some "minor" ∨ b = some "major"

instance (b : Option String) : Decidable (IsBumpKind b) := by
  unfold IsBumpKind
  infer_instance

example : parse_version "1.2.3" = some ⟨1, 2, 3, none, none⟩ := by decide
example : parse_version "v1.2.3-rc.1+b-5" =
    some ⟨1, 2, 3, some "rc.1", some "b-5"⟩ := by decide
example : parse_version "1.2" = none := by decide
example : parse_version "1.02.0" = none := by decide
example : parse_version "0.6.0-rc" = some ⟨0, 6, 0, some "rc", none⟩ := by decide
example : parse_version "1.2.3-" = none := by decide
example : parse_version "1.2.3-rc..1" = none := by decide
example : parse_version "vv1.2.3" = none := by decide
example : get_version_string "1.2.3-rc" = some "1.2.3" := by decide
example : version_bump "1.2.3" "1.1.9" = some (some "patch") := by decide
example : bump_version "1.2.3-rc" none = some "1.2.3-rc" := by decide
example : bump_version "1.2.9-rc" (some "minor") = some "1.3.0" := by decide
example : parse_version_cli "1.2.3" = some [1, 2, 3] := by decide
example : parse_version_cli "1.-2.3" = some [1, -2, 3] := by decide
example : parse_version_cli "1.2.3-rc" = none := by decide
example : version_bump_cli "1.2.3" "1.2.10" = some (some "patch") := by decide
example : bump_version_cli "0.5.0" "minor" = some "0.6.0" := by decide
example :
    fetch_updates_core
      [⟨some "1.2.0", some "1.3.0"⟩, ⟨some "2.0.0", some "2.0.1"⟩]
      (some "0.5.0") =
    some ([some "minor", some "patch"],
          ⟨some "0.5.0", some "0.5.1", "patch"⟩) := by decide
example :
    fetch_updates_core [⟨none, some "3.0.0"⟩] (some "0.5.0") =
    some ([some "major"], ⟨some "0.5.0", some "0.6.0", "minor"⟩) := by decide
example :
    fetch_updates_core [⟨some "1.0.0", some "1.0.0"⟩] (some "0.5.0") =
    some ([none], ⟨some "0.5.0", some "0.5.0", "patch"⟩) := by decide
example : semverLtB ⟨1, 2, 3, some "rc", none⟩ ⟨1, 2, 3, none, none⟩ = true := by
  decide
example : semverLtB ⟨1, 2, 3, some "rc", none⟩ ⟨1, 2, 3, some "rc.1", none⟩ = true := by
  decide
example :
    prerelease_sequencer ⟨0, 6, 0, some "rc", none⟩ ⟨0, 6, 0, none, none⟩
      (some "rc") = "0.6.0-rc.1" := by decide
example :
    prerelease_sequencer ⟨0, 6, 0, some "rc.4", none⟩ ⟨0, 6, 0, none, none⟩
      (some "rc") = "0.6.0-rc.5" := by decide
example :
    prerelease_sequencer ⟨0, 5, 0, none, none⟩ ⟨0, 6, 0, none, none⟩
      (some "rc") = "0.6.0-rc" := by decide
example :
    prerelease_sequencer ⟨0, 5, 0, none, none⟩ ⟨0, 6, 0, none, none⟩ none =
      "0.6.0" := by decide

lemma le_foldl_max (l : List Nat) (a : Nat) : a ≤ l.foldl max a := by
  induction l generalizing a with
  | nil => exact Nat.le_refl a
  | cons x xs ih => exact Nat.le_trans (Nat.le_max_left a x) (ih (max a x))

lemma max_eq_or (a b : Nat) : max a b = a ∨ max a b = b := by
  rcases Nat.le_total a b with h | h
  · exact Or.inr (Nat.max_eq_right h)
  · exact Or.inl (Nat.max_eq_left h)

lemma mem_le_foldl_max (l : List Nat) (a x : Nat) (hx : x ∈ l) :
    x ≤ l.foldl max a := by
  induction l generalizing a with
  | nil => cases hx
  | cons y ys ih =>
    rcases List.mem_cons.mp hx with h | h
    · subst h
      exact Nat.le_trans (Nat.le_max_right a x) (le_foldl_max ys (max a x))
    · exact ih (max a y) h

lemma foldl_max_le (l : List Nat) (a c : Nat) (ha : a ≤ c)
    (hl : ∀ x ∈ l, x ≤ c) : l.foldl max a ≤ c := by
  induction l generalizing a with
  | nil => exact ha
  | cons y ys ih =>
    exact ih (max a y) (Nat.max_le.mpr ⟨ha, hl y (List.mem_cons_self y ys)⟩)
      (fun x hx => hl x (List.mem_cons_of_mem y hx))

lemma foldl_max_eq_init_or_mem (l : List Nat) (a : Nat) :
    l.foldl max a = a ∨ ∃ x ∈ l, l.foldl max a = x := by
  induction l generalizing a with
  | nil => exact Or.inl rfl
  | cons y ys ih =>
    rcases ih (max a y) with h | ⟨x, hx, hfx⟩
    · rcases max_eq_or a y with hm | hm
      · exact Or.inl (h.trans hm)
      · exact Or.inr ⟨y, List.mem_cons_self y ys, h.trans hm⟩
    · exact Or.inr ⟨x, List.mem_cons_of_mem y hx, hfx⟩

lemma foldl_max_perm {l₁ l₂ : List Nat} (h : l₁.Perm l₂) (a : Nat) :
    l₁.foldl max a = l₂.foldl max a := by
  induction h generalizing a with
  | nil => rfl
  | cons x _ ih => exact ih (max a x)
  | swap x y l =>
    show List.foldl max (max (max a y) x) l = List.foldl max (max (max a x) y) l
    rw [Nat.max_assoc, Nat.max_comm y x, ← Nat.max_assoc]
  | trans _ _ ih₁ ih₂ => exact (ih₁ a).trans (ih₂ a)

lemma global_bump_level_eq (bumps : List (Option String)) :
    global_bump_level bumps = (bumps.map severity).foldl max 0 := by
  have hstep : ∀ (acc : Nat) (b : Option String),
      (match b with
       | some s => if s.isEmpty then acc else max acc (bump_priority s)
       | none => acc) = max acc (severity b) := by
    intro acc b
    cases b with
    | none => simp [severity]
    | some s =>
      by_cases hs : s.isEmpty <;> simp [severity, hs]
  suffices h : ∀ (l : List (Option String)) (acc : Nat),
      l.foldl
        (fun acc b =>
          match b with
          | some s => if s.isEmpty then acc else max acc (bump_priority s)
          | none => acc) acc = (l.map severity).foldl max acc by
    exact h bumps 0
  intro l
  induction l with
  | nil => intro acc; rfl
  | cons b bs ih =>
    intro acc
    rw [List.foldl_cons, List.map_cons, List.foldl_cons, hstep]
    exact ih (max acc (severity b))

lemma severity_le_three {b : Option String} (hb : IsBumpKind b) :
    severity b ≤ 3 := by
  rcases hb with h | h | h | h <;> subst h <;> decide

lemma bump_type_of_level_severity {b : Option String} (hb : IsBumpKind b)
    (hpos : severity b ≠ 0) : bump_type_of_level (severity b) = b := by
  rcases hb with h | h | h | h <;> subst h <;> first
    | exact absurd rfl hpos
    | decide

lemma severity_bump_type_of_level {n : Nat} (hn : n ≤ 3) :
    severity (bump_type_of_level n) = n := by
  interval_cases n <;> decide

lemma global_bump_level_le_three {l : List (Option String)}
    (hv : ∀ x ∈ l, IsBumpKind x) : global_bump_level l ≤ 3 := by
  rw [global_bump_level_eq]
  refine foldl_max_le _ _ _ (by decide) ?_
  intro s hs
  rcases List.mem_map.mp hs with ⟨b, hb, rfl⟩
  exact severity_le_three (hv b hb)

lemma dominant_of_all_none {l : List (Option String)}
    (hnone : ∀ x ∈ l, x = none) : dominant l = none := by
  have h0 : global_bump_level l = 0 := by
    rw [global_bump_level_eq]
    refine Nat.le_antisymm (foldl_max_le _ _ _ (Nat.le_refl 0) ?_)
      (le_foldl_max _ _)
    intro s hs
    rcases List.mem_map.mp hs with ⟨b, hb, rfl⟩
    rw [hnone b hb]
    exact Nat.le_refl 0
  unfold dominant
  rw [h0]
  rfl

/-- C5: the dominant-bump aggregation of `fetch_updates` (the
`global_bump_level` fold and the `bump_priority` reverse lookup) returns
`none` on the empty collection and on collections of only `none`, is an
upper bound in severity for every member, is itself `none` or one of the
members (hence the severity-maximum element), and is invariant under
permutation of its input. -/
theorem C5_dominant_aggregation :
    dominant [] = none ∧
    (∀ l : List (Option String), (∀ x ∈ l, x = none) → dominant l = none) ∧
    (∀ l : List (Option String), (∀ x ∈ l, IsBumpKind x) →
      ∀ x ∈ l, severity x ≤ severity (dominant l)) ∧
    (∀ l : List (Option String), (∀ x ∈ l, IsBumpKind x) →
      dominant l = none ∨ dominant l ∈ l) ∧
    (∀ l₁ l₂ : List (Option String), l₁.Perm l₂ → dominant l₁ = dominant l₂) := by
  refine ⟨by decide, fun l hnone => dominant_of_all_none hnone, ?_, ?_, ?_⟩
  · intro l hv x hx
    unfold dominant
    rw [severity_bump_type_of_level (global_bump_level_le_three hv),
      global_bump_level_eq]
    exact mem_le_foldl_max _ _ _ (List.mem_map.mpr ⟨x, hx, rfl⟩)
  · intro l hv
    by_cases h0 : global_bump_level l = 0
    · left
      unfold dominant
      rw [h0]
      rfl
    · right
      have := foldl_max_eq_init_or_mem (l.map severity) 0
      rw [← global_bump_level_eq] at this
      rcases this with h | ⟨y, hy, hly⟩
      · exact absurd h h0
      · rcases List.mem_map.mp hy with ⟨b, hb, rfl⟩
        have hbt : bump_type_of_level (severity b) = b :=
          bump_type_of_level_severity (hv b hb) (fun hz => h0 (hly.trans hz))
        unfold dominant
        rw [hly, hbt]
        exact hb
  · intro l₁ l₂ hperm
    unfold dominant
    rw [global_bump_level_eq, global_bump_level_eq,
      foldl_max_perm (hperm.map severity) 0]

theorem C5_dominant_aggregation_witness :
    severity (some "patch") ≤ severity (dominant [none, some "patch"]) ∧
    dominant [some "patch", some "minor", some "major"] = some "major" ∧
    dominant [some "minor", none, some "patch"] =
      dominant [none, some "minor", some "patch"] := by
  refine ⟨C5_dominant_aggregation.2.2.1 [none, some "patch"] (by decide)
    (some "patch") (by decide), by decide, ?_⟩
  exact C5_dominant_aggregation.2.2.2.2 _ _
    (List.Perm.swap none (some "minor") [some "patch"])

/-- C1 counterexample: the claim states `coarsen(minor) = minor`, but the
source expression `"minor" if bump_type and bump_priority[bump_type] > 2
else "patch"` requires priority strictly above 2, so a dominant `minor`
bump (priority exactly 2) coarsens to `"patch"`. -/
theorem C1_coarsen_counterexample :
    coarsen (some "minor") = "patch" ∧ coarsen (some "minor") ≠ "minor" := by
  decide

/-- C1 (amended): the coarsening of the dominant bump to the parent's
two-level scheme maps `none`, `patch` and `minor` to `patch`, and only
`major` to `minor`. -/
theorem C1_coarsen :
    coarsen none = "patch" ∧ coarsen (some "patch") = "patch" ∧
    coarsen (some "minor") = "patch" ∧ coarsen (some "major") = "minor" := by
  decide

lemma collect_bumps_length : ∀ {es : List EntityInput}
    {bs : List (Option String)}, collect_bumps es = some bs →
    bs.length = es.length := by
  intro es
  induction es with
  | nil =>
    intro bs h
    unfold collect_bumps at h
    cases h
    rfl
  | cons e es ih =>
    intro bs h
    unfold collect_bumps at h
    cases heb : entity_bump e with
    | none => rw [heb] at h; cases h
    | some b =>
      rw [heb] at h
      cases hcb : collect_bumps es with
      | none => rw [hcb] at h; cases h
      | some bs2 =>
        rw [hcb] at h
        cases h
        simp [ih hcb]

lemma collect_bumps_get : ∀ {es : List EntityInput}
    {bs : List (Option String)}, collect_bumps es = some bs →
    ∀ (i : Nat) (h1 : i < es.length) (h2 : i < bs.length),
      entity_bump (es.get ⟨i, h1⟩) = some (bs.get ⟨i, h2⟩) := by
  intro es
  induction es with
  | nil =>
    intro bs h i h1 h2
    cases h1
  | cons e es ih =>
    intro bs h i h1 h2
    unfold collect_bumps at h
    cases heb : entity_bump e with
    | none => rw [heb] at h; cases h
    | some b =>
      rw [heb] at h
      cases hcb : collect_bumps es with
      | none => rw [hcb] at h; cases h
      | some bs2 =>
        rw [hcb] at h
        cases h
        cases i with
        | zero => exact heb
        | succ j =>
          exact ih hcb j (Nat.lt_of_succ_lt_succ h1) (Nat.lt_of_succ_lt_succ h2)

lemma fetch_updates_core_bumps {entities : List EntityInput}
    {rc : Option String} {bumps : List (Option String)} {pinfo : ParentInfo}
    (h : fetch_updates_core entities rc = some (bumps, pinfo)) :
    collect_bumps entities = some bumps := by
  unfold fetch_updates_core at h
  cases hcb : collect_bumps entities with
  | none => rw [hcb] at h; cases h
  | some bs =>
    rw [hcb] at h
    simp only at h
    split at h
    · cases rc with
      | none => cases h
      | some rcs =>
        rcases Option.map_eq_some'.mp h with ⟨s, _, heq⟩
        cases heq
        rfl
    · cases h
      rfl

/-- C8: in `fetch_updates`, an entity whose current chart version is absent
while a suggested chart version is present is classified `"major"`, without
parsing the suggested version and independently of every other entity; in
particular an entity with no current version and target `3.0.0` is
classified `major` in any successfully built plan containing it. -/
theorem C8_missing_current_forces_major :
    (∀ sv : String, ¬sv.isEmpty →
      entity_bump ⟨none, some sv⟩ = some (some "major")) ∧
    (∀ (entities : List EntityInput) (rc : Option String)
        (bumps : List (Option String)) (pinfo : ParentInfo)
        (i : Nat) (h1 : i < entities.length),
      fetch_updates_core entities rc = some (bumps, pinfo) →
      (entities.get ⟨i, h1⟩).current_version = none →
      truthy (entities.get ⟨i, h1⟩).suggested_version = true →
      ∃ h2 : i < bumps.length, bumps.get ⟨i, h2⟩ = some "major") ∧
    entity_bump ⟨none, some "3.0.0"⟩ = some (some "major") := by
  have hone : ∀ sv : String, ¬sv.isEmpty →
      entity_bump ⟨none, some sv⟩ = some (some "major") := by
    intro sv hsv
    unfold entity_bump
    simp [hsv]
  refine ⟨hone, ?_, by decide⟩
  intro entities rc bumps pinfo i h1 hfetch hcur htr
  have hcb := fetch_updates_core_bumps hfetch
  have hlen : bumps.length = entities.length := collect_bumps_length hcb
  have h2 : i < bumps.length := hlen ▸ h1
  refine ⟨h2, ?_⟩
  have hget := collect_bumps_get hcb i h1 h2
  obtain ⟨sv, hsv⟩ : ∃ sv, (entities.get ⟨i, h1⟩).suggested_version = some sv := by
    cases hsug : (entities.get ⟨i, h1⟩).suggested_version with
    | none => rw [hsug] at htr; simp [truthy] at htr
    | some s => exact ⟨s, rfl⟩
  have hne : ¬sv.isEmpty := by
    rw [hsv] at htr
    simpa [truthy] using htr
  have hmaj : entity_bump (entities.get ⟨i, h1⟩) = some (some "major") := by
    unfold entity_bump
    rw [hsv, hcur]
    simp [hne]
  rw [hmaj] at hget
  exact (Option.some.injEq _ _ ▸ hget).symm

theorem C8_missing_current_forces_major_witness :
    entity_bump ⟨none, some "3.0.0"⟩ = some (some "major") ∧
    (∃ h2 : (1 : Nat) < ([some "patch", some "major"] :
        List (Option String)).length,
      ([some "patch", some "major"] : List (Option String)).get ⟨1, h2⟩ =
        some "major") := by
  refine ⟨C8_missing_current_forces_major.1 "3.0.0" (by decide), ?_⟩
  exact C8_missing_current_forces_major.2.1
    [⟨some "1.0.0", some "1.0.1"⟩, ⟨none, some "3.0.0"⟩] (some "1.0.0")
    [some "patch", some "major"] ⟨some "1.0.0", some "1.1.0", "minor"⟩
    1 (by decide) (by decide) (by decide) (by decide)

lemma coarsen_eq_patch_or_minor (b : Option String) :
    coarsen b = "patch" ∨ coarsen b = "minor" := by
  cases b with
  | none => exact Or.inl rfl
  | some s =>
    simp only [coarsen]
    split
    · exact Or.inr rfl
    · exact Or.inl rfl

/-- C10: in every successfully built plan, the parent's reported
`chart_bump` field is the string `"patch"` or the string `"minor"`, never
`None` and never `"major"`; and when no entity has any bump the parent's
suggested version equals its current version while the reported parent
chart bump is still `"patch"`. -/
theorem C10_parent_chart_bump :
    (∀ (entities : List EntityInput) (rc : Option String)
        (bumps : List (Option String)) (pinfo : ParentInfo),
      fetch_updates_core entities rc = some (bumps, pinfo) →
      (pinfo.chart_bump = "patch" ∨ pinfo.chart_bump = "minor")) ∧
    (∀ (entities : List EntityInput) (rc : Option String)
        (bumps : List (Option String)) (pinfo : ParentInfo),
      fetch_updates_core entities rc = some (bumps, pinfo) →
      (∀ b ∈ bumps, b = none) →
      pinfo.suggested = pinfo.current ∧ pinfo.chart_bump = "patch") := by
  constructor
  · intro entities rc bumps pinfo h
    unfold fetch_updates_core at h
    cases hcb : collect_bumps entities with
    | none => rw [hcb] at h; cases h
    | some bs =>
      rw [hcb] at h
      simp only at h
      split at h
      · cases rc with
        | none => cases h
        | some rcs =>
          rcases Option.map_eq_some'.mp h with ⟨s, _, heq⟩
          have hp : pinfo =
              ParentInfo.mk (some rcs) (some s) (coarsen (dominant bs)) :=
            (congrArg Prod.snd heq).symm
          rw [hp]
          exact coarsen_eq_patch_or_minor (dominant bs)
      · injection h with h2
        have hp : pinfo = ParentInfo.mk rc rc (coarsen (dominant bs)) :=
          (congrArg Prod.snd h2).symm
        rw [hp]
        exact coarsen_eq_patch_or_minor (dominant bs)
  · intro entities rc bumps pinfo h hnone
    have hcb : collect_bumps entities = some bumps :=
      fetch_updates_core_bumps h
    have hdom : dominant bumps = none := dominant_of_all_none hnone
    unfold fetch_updates_core at h
    rw [hcb] at h
    simp only at h
    rw [hdom] at h
    simp only [truthy] at h
    cases h
    exact ⟨rfl, rfl⟩

theorem C10_parent_chart_bump_witness :
    ((ParentInfo.mk (some "0.5.0") (some "0.6.0") "minor").chart_bump = "patch" ∨
      (ParentInfo.mk (some "0.5.0") (some "0.6.0") "minor").chart_bump = "minor") ∧
    (ParentInfo.mk (some "0.5.0") (some "0.5.0") "patch").suggested =
        (ParentInfo.mk (some "0.5.0") (some "0.5.0") "patch").current ∧
      (ParentInfo.mk (some "0.5.0") (some "0.5.0") "patch").chart_bump = "patch" := by
  constructor
  · exact C10_parent_chart_bump.1 [⟨none, some "3.0.0"⟩] (some "0.5.0")
      [some "major"] ⟨some "0.5.0", some "0.6.0", "minor"⟩ (by decide)
  · exact C10_parent_chart_bump.2 [⟨some "1.0.0", some "1.0.0"⟩] (some "0.5.0")
      [none] ⟨some "0.5.0", some "0.5.0", "patch"⟩ (by decide) (by decide)

/-- C2: in the pre-release sequencer (modelled from the spec, see
`prerelease_sequencer`), when an identifier is supplied, the candidate is
not greater than the parent's current version, and the current version
carries a prerelease whose train value equals the identifier (ignoring any
trailing numeric counter), the result keeps the current version's release
core and sets the prerelease to `identifier.(n+1)` with `n` the existing
counter (0 when absent); in particular parent current `0.6.0-rc` with
identifier `rc` and candidate `0.6.0` yields `0.6.0-rc.1`. -/
theorem C2_prerelease_increment_train :
    (∀ (current candidate : SemVer) (id pre : String),
      coreLtB current candidate = false →
      current.prerelease = some pre →
      (train_of_prerelease pre.toList).1 = id.toList →
      prerelease_sequencer current candidate (some id) =
        render_spec ⟨current.major, current.minor, current.patch,
          some (id ++ "." ++
            natToStr ((train_of_prerelease pre.toList).2 + 1)), none⟩) ∧
    prerelease_sequencer ⟨0, 6, 0, some "rc", none⟩ ⟨0, 6, 0, none, none⟩
      (some "rc") = "0.6.0-rc.1" ∧
    parse_version "0.6.0-rc" = some ⟨0, 6, 0, some "rc", none⟩ ∧
    parse_version "0.6.0" = some ⟨0, 6, 0, none, none⟩ := by
  refine ⟨?_, by decide, by decide, by decide⟩
  intro current candidate id pre hng hpre hval
  unfold prerelease_sequencer
  rw [hng, hpre]
  simp only [Bool.false_eq_true, if_false]
  rw [if_pos hval]

theorem C2_prerelease_increment_train_witness :
    prerelease_sequencer ⟨0, 6, 0, some "rc", none⟩ ⟨0, 6, 0, none, none⟩
        (some "rc") =
      render_spec ⟨0, 6, 0,
        some ("rc" ++ "." ++
          natToStr ((train_of_prerelease "rc".toList).2 + 1)), none⟩ ∧
    render_spec ⟨0, 6, 0,
        some ("rc" ++ "." ++
          natToStr ((train_of_prerelease "rc".toList).2 + 1)), none⟩ =
      "0.6.0-rc.1" := by
  refine ⟨?_, by decide⟩
  exact C2_prerelease_increment_train.1 ⟨0, 6, 0, some "rc", none⟩
    ⟨0, 6, 0, none, none⟩ "rc" "rc" (by decide) rfl (by decide)

/-- C3 counterexample: `1.1.9` strictly precedes `1.2.3` in the spec
section 3 order on the release core, yet `version_bump("1.2.3", "1.1.9")`
returns `"patch"` (the less-significant patch component increased), not
`None`: the classifier scans components independently, so a numerically
lower `new` does not always yield `None`. -/
theorem C3_never_reports_decrease_counterexample :
    ((parse_version "1.1.9").bind fun n =>
      (parse_version "1.2.3").map fun o => coreLtB n o) = some true ∧
    version_bump "1.2.3" "1.1.9" = some (some "patch") ∧
    version_bump "1.2.3" "1.1.9" ≠ some (none : Option String) := by
  decide

/-- C3 (amended): for every pair of valid versions `old` and `new` in which
no component of `new` (major, minor, patch) exceeds the corresponding
component of `old` — in particular for any componentwise decrease —
`version_bump(old, new)` returns `None` and raises no error; a mere
lexicographic decrease does not suffice, since a less-significant component
may still have increased. -/
theorem C3_never_reports_decrease (old new : String) (o n : SemVer)
    (ho : parse_version old = some o) (hn : parse_version new = some n)
    (hma : n.major ≤ o.major) (hmi : n.minor ≤ o.minor)
    (hpa : n.patch ≤ o.patch) :
    version_bump old new = some (none : Option String) := by
  unfold version_bump
  rw [ho, hn]
  simp [Nat.not_lt.mpr hma, Nat.not_lt.mpr hmi, Nat.not_lt.mpr hpa]

theorem C3_never_reports_decrease_witness :
    version_bump "1.2.3" "1.1.2" = some (none : Option String) := by
  exact C3_never_reports_decrease "1.2.3" "1.1.2" ⟨1, 2, 3, none, none⟩
    ⟨1, 1, 2, none, none⟩ (by decide) (by decide) (by decide) (by decide)
    (by decide)

/-- C9: bump classification ignores prerelease entirely: whenever the two
versions parse with equal major, minor and patch, `version_bump` returns
`None` regardless of either prerelease; in particular
`version_bump("1.2.3-rc", "1.2.3")` is `None` even though `1.2.3` is
strictly greater than `1.2.3-rc` in the full spec section 3 order. -/
theorem C9_classify_ignores_prerelease :
    (∀ (old new : String) (o n : SemVer),
      parse_version old = some o → parse_version new = some n →
      o.major = n.major → o.minor = n.minor → o.patch = n.patch →
      version_bump old new = some (none : Option String)) ∧
    version_bump "1.2.3-rc" "1.2.3" = some (none : Option String) ∧
    ((parse_version "1.2.3-rc").bind fun a =>
      (parse_version "1.2.3").map fun b => semverLtB a b) = some true := by
  refine ⟨?_, by decide, by decide⟩
  intro old new o n ho hn hma hmi hpa
  unfold version_bump
  rw [ho, hn]
  simp [Nat.not_lt.mpr (Nat.le_of_eq hma.symm),
    Nat.not_lt.mpr (Nat.le_of_eq hmi.symm),
    Nat.not_lt.mpr (Nat.le_of_eq hpa.symm)]

theorem C9_classify_ignores_prerelease_witness :
    version_bump "2.4.6-alpha.2" "2.4.6-beta" = some (none : Option String) := by
  exact C9_classify_ignores_prerelease.1 "2.4.6-alpha.2" "2.4.6-beta"
    ⟨2, 4, 6, some "alpha.2", none⟩ ⟨2, 4, 6, some "beta", none⟩
    (by decide) (by decide) rfl rfl rfl

lemma digitChar_isDigit : ∀ d, d < 10 → (digitChar d).isDigit = true := by
  decide

lemma digitChar_val : ∀ d, d < 10 → (digitChar d).toNat - 48 = d := by decide

lemma digitChar_ne_zero : ∀ d, d < 10 → 1 ≤ d → digitChar d ≠ '0' := by decide

lemma natToRevDigitsFuel_irrel : ∀ (f : Nat), ∀ (g n : Nat), n < f → n < g →
    natToRevDigitsFuel f n = natToRevDigitsFuel g n := by
  intro f
  induction f with
  | zero =>
    intro g n hf
    cases hf
  | succ f ih =>
    intro g n hf hg
    cases g with
    | zero => cases hg
    | succ g =>
      rw [natToRevDigitsFuel, natToRevDigitsFuel]
      by_cases h : n < 10
      · rw [if_pos h, if_pos h]
      · rw [if_neg h, if_neg h]
        have hn0 : 0 < n := by omega
        have hdiv : n / 10 < n := Nat.div_lt_self hn0 (by omega)
        congr 1
        exact ih g (n / 10) (by omega) (by omega)

lemma natToRevDigits_eq (n : Nat) : natToRevDigits n =
    if n < 10 then [digitChar n]
    else digitChar (n % 10) :: natToRevDigits (n / 10) := by
  show natToRevDigitsFuel (n + 1) n = _
  rw [natToRevDigitsFuel]
  by_cases h : n < 10
  · rw [if_pos h, if_pos h]
  · rw [if_neg h, if_neg h]
    have hdiv : n / 10 < n := Nat.div_lt_self (by omega) (by omega)
    congr 1
    exact natToRevDigitsFuel_irrel n (n / 10 + 1) (n / 10) hdiv
      (Nat.lt_succ_self _)

lemma natToRevDigits_ne_nil (n : Nat) : natToRevDigits n ≠ [] := by
  rw [natToRevDigits_eq]
  split <;> simp

lemma natToRevDigits_all_digit :
    ∀ n, (natToRevDigits n).all (·.isDigit) = true := by
  intro n
  induction n using Nat.strong_induction_on with
  | _ n ih =>
    rw [natToRevDigits_eq]
    by_cases h : n < 10
    · rw [if_pos h]
      simp [digitChar_isDigit n h]
    · rw [if_neg h]
      have hdiv : n / 10 < n := Nat.div_lt_self (by omega) (by omega)
      simp only [List.all_cons, Bool.and_eq_true]
      exact ⟨digitChar_isDigit (n % 10) (Nat.mod_lt n (by omega)), ih _ hdiv⟩

lemma natToRevDigits_getLast_ne_zero :
    ∀ n, 1 ≤ n → (natToRevDigits n).getLast? ≠ some '0' := by
  intro n
  induction n using Nat.strong_induction_on with
  | _ n ih =>
    intro hn
    rw [natToRevDigits_eq]
    by_cases h : n < 10
    · rw [if_pos h]
      simpa using digitChar_ne_zero n h hn
    · rw [if_neg h]
      have hne : natToRevDigits (n / 10) ≠ [] := natToRevDigits_ne_nil _
      have hdiv : n / 10 < n := Nat.div_lt_self (by omega) (by omega)
      have hrec := ih (n / 10) hdiv (by omega)
      cases hd : natToRevDigits (n / 10) with
      | nil => exact absurd hd hne
      | cons c cs =>
        rw [hd] at hrec
        simpa [List.getLast?, List.getLastD_cons] using hrec

lemma foldr_natToRevDigits :
    ∀ n, (natToRevDigits n).foldr (fun c acc => acc * 10 + (c.toNat - 48)) 0
      = n := by
  intro n
  induction n using Nat.strong_induction_on with
  | _ n ih =>
    rw [natToRevDigits_eq]
    by_cases h : n < 10
    · rw [if_pos h]
      simp [digitChar_val n h]
    · rw [if_neg h]
      have hdiv : n / 10 < n := Nat.div_lt_self (by omega) (by omega)
      simp only [List.foldr_cons, ih _ hdiv,
        digitChar_val (n % 10) (Nat.mod_lt n (by omega))]
      omega

lemma parseNatChars_natToChars (n : Nat) : parseNatChars (natToChars n) = n := by
  unfold parseNatChars natToChars
  rw [List.foldl_reverse]
  exact foldr_natToRevDigits n

lemma natToChars_ne_nil (n : Nat) : natToChars n ≠ [] := by
  unfold natToChars
  rw [Ne, List.reverse_eq_nil_iff]
  exact natToRevDigits_ne_nil n

lemma natToChars_all_digit (n : Nat) :
    (natToChars n).all (·.isDigit) = true := by
  unfold natToChars
  rw [List.all_reverse]
  exact natToRevDigits_all_digit n

lemma natToChars_mem_digit {n : Nat} {c : Char} (hc : c ∈ natToChars n) :
    c.isDigit = true :=
  List.all_eq_true.mp (natToChars_all_digit n) c hc

lemma isNumericIdent_natToChars (n : Nat) :
    isNumericIdent (natToChars n) = true := by
  unfold isNumericIdent
  have hne : (natToChars n).isEmpty = false := by
    rw [List.isEmpty_eq_false_iff_exists_mem]
    cases hd : natToChars n with
    | nil => exact absurd hd (natToChars_ne_nil n)
    | cons c cs => exact ⟨c, List.mem_cons_self c cs⟩
  rw [hne, natToChars_all_digit]
  by_cases h : n < 10
  · have : natToChars n = [digitChar n] := by
      unfold natToChars
      rw [natToRevDigits_eq, if_pos h]
      rfl
    rw [this]
    rfl
  · have hhead : (natToChars n).head? ≠ some '0' := by
      unfold natToChars
      rw [List.head?_reverse]
      exact natToRevDigits_getLast_ne_zero n (by omega)
    simp [hhead]

lemma digit_ne {c : Char} (hc : c.isDigit = true) {c₀ : Char}
    (h₀ : c₀.isDigit = false) : c ≠ c₀ := by
  intro he
  rw [he, h₀] at hc
  cases hc

lemma splitFirstC_of_not_mem {sep : Char} {l : List Char} (h : sep ∉ l) :
    splitFirstC sep l = (l, none) := by
  induction l with
  | nil => rfl
  | cons c cs ih =>
    have hc : ¬(c = sep) := fun he => h (he ▸ List.mem_cons_self c cs)
    have hcs : sep ∉ cs := fun hm => h (List.mem_cons_of_mem c hm)
    unfold splitFirstC
    rw [if_neg hc, ih hcs]

lemma splitOnC_ne_nil (sep : Char) (l : List Char) : splitOnC sep l ≠ [] := by
  induction l with
  | nil => simp [splitOnC]
  | cons c cs ih =>
    show (match splitOnC sep cs with
      | [] => [[]]
      | g :: gs => if c = sep then [] :: g :: gs else (c :: g) :: gs) ≠ []
    cases h : splitOnC sep cs with
    | nil => simp
    | cons g gs => by_cases hc : c = sep <;> simp [hc]

lemma splitOnC_cons_eq (sep c : Char) (cs : List Char) :
    ∃ g gs, splitOnC sep cs = g :: gs ∧
      splitOnC sep (c :: cs) =
        if c = sep then [] :: g :: gs else (c :: g) :: gs := by
  cases h : splitOnC sep cs with
  | nil => exact absurd h (splitOnC_ne_nil sep cs)
  | cons g gs =>
    refine ⟨g, gs, rfl, ?_⟩
    show (match splitOnC sep cs with
      | [] => [[]]
      | g :: gs => if c = sep then [] :: g :: gs else (c :: g) :: gs) = _
    rw [h]

lemma splitOnC_of_not_mem {sep : Char} {l : List Char} (h : sep ∉ l) :
    splitOnC sep l = [l] := by
  induction l with
  | nil => rfl
  | cons c cs ih =>
    have hc : ¬(c = sep) := fun he => h (he ▸ List.mem_cons_self c cs)
    have hcs : sep ∉ cs := fun hm => h (List.mem_cons_of_mem c hm)
    obtain ⟨g, gs, hg, heq⟩ := splitOnC_cons_eq sep c cs
    rw [ih hcs] at hg
    cases hg
    rw [heq, if_neg hc]

lemma splitOnC_append_sep {sep : Char} {l₁ l₂ : List Char} (h : sep ∉ l₁) :
    splitOnC sep (l₁ ++ sep :: l₂) = l₁ :: splitOnC sep l₂ := by
  induction l₁ with
  | nil =>
    simp only [List.nil_append]
    obtain ⟨g, gs, hg, heq⟩ := splitOnC_cons_eq sep sep l₂
    rw [heq, if_pos rfl, hg]
  | cons c cs ih =>
    have hc : ¬(c = sep) := fun he => h (he ▸ List.mem_cons_self c cs)
    have hcs : sep ∉ cs := fun hm => h (List.mem_cons_of_mem c hm)
    obtain ⟨g, gs, hg, heq⟩ := splitOnC_cons_eq sep c (cs ++ sep :: l₂)
    rw [List.cons_append, heq, if_neg hc]
    rw [ih hcs] at hg
    cases hg
    rfl

lemma mem_core {a b c : Nat} {x : Char}
    (hx : x ∈ natToChars a ++ '.' :: (natToChars b ++ '.' :: natToChars c)) :
    x.isDigit = true ∨ x = '.' := by
  simp only [List.mem_append, List.mem_cons] at hx
  rcases hx with h | h | h | h | h
  · exact Or.inl (natToChars_mem_digit h)
  · exact Or.inr h
  · exact Or.inl (natToChars_mem_digit h)
  · exact Or.inr h
  · exact Or.inl (natToChars_mem_digit h)

lemma natToRevDigits_head (n : Nat) :
    ∃ d, d < 10 ∧ (natToRevDigits n).head? = some (digitChar d) := by
  rw [natToRevDigits_eq]
  by_cases h : n < 10
  · exact ⟨n, h, by rw [if_pos h]; rfl⟩
  · exact ⟨n % 10, Nat.mod_lt n (by omega), by rw [if_neg h]; rfl⟩

lemma natToChars_getLast_digit (n : Nat) :
    ∃ d, d < 10 ∧ (natToChars n).getLast? = some (digitChar d) := by
  unfold natToChars
  rw [List.getLast?_reverse]
  exact natToRevDigits_head n

lemma natToChars_head_digit (n : Nat) :
    ∃ x, x.isDigit = true ∧ (natToChars n).head? = some x := by
  cases hd : natToChars n with
  | nil => exact absurd hd (natToChars_ne_nil n)
  | cons x xs =>
    refine ⟨x, ?_, rfl⟩
    exact natToChars_mem_digit (hd ▸ List.mem_cons_self x xs)

lemma semver_regex_match_render (a b c : Nat) :
    semver_regex_match
        (natToChars a ++ '.' :: (natToChars b ++ '.' :: natToChars c)) =
      some ⟨natToChars a, natToChars b, natToChars c, none, none⟩ := by
  have hA := natToChars_ne_nil a
  have hB := natToChars_ne_nil b
  have hC := natToChars_ne_nil c
  have hdotA : '.' ∉ natToChars a :=
    fun hm => digit_ne (natToChars_mem_digit hm) (by decide) rfl
  have hdotB : '.' ∉ natToChars b :=
    fun hm => digit_ne (natToChars_mem_digit hm) (by decide) rfl
  have hdotC : '.' ∉ natToChars c :=
    fun hm => digit_ne (natToChars_mem_digit hm) (by decide) rfl
  have hplus : '+' ∉ natToChars a ++ '.' :: (natToChars b ++ '.' :: natToChars c) := by
    intro hm
    rcases mem_core hm with h | h
    · rw [show ('+' : Char).isDigit = false by decide] at h
      cases h
    · cases h
  have hminus : '-' ∉ natToChars a ++ '.' :: (natToChars b ++ '.' :: natToChars c) := by
    intro hm
    rcases mem_core hm with h | h
    · rw [show ('-' : Char).isDigit = false by decide] at h
      cases h
    · cases h
  have hhead : (natToChars a ++ '.' :: (natToChars b ++ '.' :: natToChars c)).head?
      ≠ some 'v' := by
    obtain ⟨x, hxd, hx⟩ := natToChars_head_digit a
    cases hd : natToChars a with
    | nil => exact absurd hd hA
    | cons y ys =>
      rw [hd] at hx
      simp only [List.head?] at hx
      cases hx
      intro hcon
      simp only [List.cons_append, List.head?, Option.some.injEq] at hcon
      exact digit_ne hxd (by decide) hcon
  have hlast : (natToChars a ++ '.' :: (natToChars b ++ '.' :: natToChars c)).getLast?
      ≠ some '\n' := by
    obtain ⟨d, hd10, hdl⟩ := natToChars_getLast_digit c
    rw [List.getLast?_append_of_ne_nil (natToChars a) (by simp),
      ← List.singleton_append,
      List.getLast?_append_of_ne_nil ['.'] (by simp [hC]),
      List.getLast?_append_of_ne_nil (natToChars b) (by simp [hC]),
      ← List.singleton_append,
      List.getLast?_append_of_ne_nil ['.'] hC, hdl]
    intro hcon
    exact digit_ne (digitChar_isDigit d hd10) (by decide)
      (Option.some.injEq _ _ ▸ hcon)
  unfold semver_regex_match
  have h1 : stripV (natToChars a ++ '.' :: (natToChars b ++ '.' :: natToChars c))
      = natToChars a ++ '.' :: (natToChars b ++ '.' :: natToChars c) := by
    unfold stripV
    rw [if_neg hhead]
  have h2 : stripNl (natToChars a ++ '.' :: (natToChars b ++ '.' :: natToChars c))
      = natToChars a ++ '.' :: (natToChars b ++ '.' :: natToChars c) := by
    unfold stripNl
    rw [if_neg hlast]
  rw [h1, h2]
  unfold semver_match_body
  rw [splitFirstC_of_not_mem hplus]
  dsimp only
  rw [splitFirstC_of_not_mem hminus]
  dsimp only
  rw [splitOnC_append_sep hdotA, splitOnC_append_sep hdotB,
    splitOnC_of_not_mem hdotC]
  simp [isNumericIdent_natToChars, preOkC, buildOkC]

lemma parse_version_of_toList (s : String) (a b c : Nat)
    (h : s.toList = natToChars a ++ '.' :: (natToChars b ++ '.' :: natToChars c)) :
    parse_version s = some ⟨a, b, c, none, none⟩ := by
  unfold parse_version
  rw [h, semver_regex_match_render]
  simp [parseNatChars_natToChars]

lemma render_core_toList (a b c : Nat) :
    (natToStr a ++ "." ++ natToStr b ++ "." ++ natToStr c).toList =
      natToChars a ++ '.' :: (natToChars b ++ '.' :: natToChars c) := by
  show (natToStr a).data ++ ("." : String).data ++ (natToStr b).data
      ++ ("." : String).data ++ (natToStr c).data = _
  show natToChars a ++ ['.'] ++ natToChars b ++ ['.'] ++ natToChars c = _
  simp [List.append_assoc]

lemma parse_version_render (a b c : Nat) :
    parse_version (natToStr a ++ "." ++ natToStr b ++ "." ++ natToStr c) =
      some ⟨a, b, c, none, none⟩ :=
  parse_version_of_toList _ a b c (render_core_toList a b c)

lemma toList_shape_major (m : Nat) :
    (natToStr m ++ ".0.0").toList =
      natToChars m ++ '.' :: (natToChars 0 ++ '.' :: natToChars 0) := by
  have h0 : natToChars 0 = ['0'] := by decide
  rw [h0]
  show (natToStr m).data ++ (".0.0" : String).data = _
  show natToChars m ++ ['.', '0', '.', '0'] = _
  rfl

lemma toList_shape_minor (m n : Nat) :
    (natToStr m ++ "." ++ natToStr n ++ ".0").toList =
      natToChars m ++ '.' :: (natToChars n ++ '.' :: natToChars 0) := by
  have h0 : natToChars 0 = ['0'] := by decide
  rw [h0]
  show (natToStr m).data ++ ("." : String).data ++ (natToStr n).data
      ++ (".0" : String).data = _
  show natToChars m ++ ['.'] ++ natToChars n ++ ['.', '0'] = _
  simp [List.append_assoc]

lemma parse_bump_major (m : Nat) :
    parse_version (natToStr (m + 1) ++ ".0.0") =
      some ⟨m + 1, 0, 0, none, none⟩ :=
  parse_version_of_toList _ (m + 1) 0 0 (toList_shape_major (m + 1))

lemma parse_bump_minor (m n : Nat) :
    parse_version (natToStr m ++ "." ++ natToStr (n + 1) ++ ".0") =
      some ⟨m, n + 1, 0, none, none⟩ :=
  parse_version_of_toList _ m (n + 1) 0 (toList_shape_minor m (n + 1))

/-- C4 counterexample: `get_version_string` joins only the
`(major, minor, patch)` tuple, so rendering `1.2.3-rc` yields `1.2.3`,
which is not semantically equal to `1.2.3-rc` under the spec section 3
equality (the prereleases differ). -/
theorem C4_render_drops_prerelease_counterexample :
    get_version_string "1.2.3-rc" = some "1.2.3" ∧
    ((parse_version "1.2.3").bind fun w =>
      (parse_version "1.2.3-rc").map fun v => sem_eq w v) = some false := by
  decide

/-- C4 (amended): for every valid version string `s`,
`get_version_string s` succeeds and produces exactly
`"{major}.{minor}.{patch}"`; re-parsing it yields the release core of `s`
with prerelease and build metadata both dropped, so the result is
semantically equal to `s` exactly when `s` has no prerelease (build
metadata is always dropped). -/
theorem C4_render_parse (s : String) (v : SemVer)
    (h : parse_version s = some v) :
    get_version_string s =
      some (natToStr v.major ++ "." ++ natToStr v.minor ++ "."
        ++ natToStr v.patch) ∧
    (get_version_string s).bind parse_version =
      some ⟨v.major, v.minor, v.patch, none, none⟩ ∧
    (v.prerelease = none →
      sem_eq ⟨v.major, v.minor, v.patch, none, none⟩ v = true) := by
  have hr : get_version_string s =
      some (natToStr v.major ++ "." ++ natToStr v.minor ++ "."
        ++ natToStr v.patch) := by
    unfold get_version_string
    rw [h]
    rfl
  refine ⟨hr, ?_, ?_⟩
  · rw [hr, Option.some_bind, parse_version_render]
  · intro hp
    simp [sem_eq, hp]

theorem C4_render_parse_witness :
    get_version_string "v1.2.3+build.7" =
      some (natToStr 1 ++ "." ++ natToStr 2 ++ "." ++ natToStr 3) ∧
    (get_version_string "v1.2.3+build.7").bind parse_version =
      some ⟨1, 2, 3, none, none⟩ ∧
    (Option.none = (none : Option String) →
      sem_eq ⟨1, 2, 3, none, none⟩ ⟨1, 2, 3, none, some "build.7"⟩ = true) := by
  exact C4_render_parse "v1.2.3+build.7" ⟨1, 2, 3, none, some "build.7"⟩
    (by decide)

/-- C6: `bump_version` (semver.py) maps a valid version `v` under `major`
to `{major+1}.0.0`, under `minor` to `{major}.{minor+1}.0`, under `patch`
to `{major}.{minor}.{patch+1}` — each a clean release with any prerelease
or build suffix dropped — returns the input unchanged without error for
bump `None`, and applying `patch` twice increments the patch component by
two with major and minor unchanged. -/
theorem C6_bump_version (s : String) (v : SemVer)
    (h : parse_version s = some v) :
    (bump_version s (some "major") = some (natToStr (v.major + 1) ++ ".0.0") ∧
      (bump_version s (some "major")).bind parse_version =
        some ⟨v.major + 1, 0, 0, none, none⟩) ∧
    ((bump_version s (some "minor")).bind parse_version =
      some ⟨v.major, v.minor + 1, 0, none, none⟩) ∧
    ((bump_version s (some "patch")).bind parse_version =
      some ⟨v.major, v.minor, v.patch + 1, none, none⟩) ∧
    bump_version s none = some s ∧
    (((bump_version s (some "patch")).bind
        fun t => bump_version t (some "patch")).bind parse_version =
      some ⟨v.major, v.minor, v.patch + 2, none, none⟩) := by
  have hmaj : bump_version s (some "major")
      = some (natToStr (v.major + 1) ++ ".0.0") := by
    unfold bump_version
    rw [h]
    rfl
  have hmin : bump_version s (some "minor")
      = some (natToStr v.major ++ "." ++ natToStr (v.minor + 1) ++ ".0") := by
    unfold bump_version
    rw [h]
    rfl
  have hpat : bump_version s (some "patch")
      = some (natToStr v.major ++ "." ++ natToStr v.minor ++ "."
        ++ natToStr (v.patch + 1)) := by
    unfold bump_version
    rw [h]
    rfl
  have hnone : bump_version s none = some s := by
    unfold bump_version
    rw [h]
    rfl
  have hpat2 : bump_version
      (natToStr v.major ++ "." ++ natToStr v.minor ++ "."
        ++ natToStr (v.patch + 1)) (some "patch")
      = some (natToStr v.major ++ "." ++ natToStr v.minor ++ "."
        ++ natToStr (v.patch + 1 + 1)) := by
    unfold bump_version
    rw [parse_version_render]
    rfl
  refine ⟨⟨hmaj, ?_⟩, ?_, ?_, hnone, ?_⟩
  · rw [hmaj, Option.some_bind, parse_bump_major]
  · rw [hmin, Option.some_bind, parse_bump_minor]
  · rw [hpat, Option.some_bind, parse_version_render]
  · rw [hpat, Option.some_bind, hpat2, Option.some_bind, parse_version_render]

theorem C6_bump_version_witness :
    (bump_version "2.3.4-rc+b1" (some "major") =
        some (natToStr (2 + 1) ++ ".0.0") ∧
      (bump_version "2.3.4-rc+b1" (some "major")).bind parse_version =
        some ⟨2 + 1, 0, 0, none, none⟩) ∧
    ((bump_version "2.3.4-rc+b1" (some "minor")).bind parse_version =
      some ⟨2, 3 + 1, 0, none, none⟩) ∧
    ((bump_version "2.3.4-rc+b1" (some "patch")).bind parse_version =
      some ⟨2, 3, 4 + 1, none, none⟩) ∧
    bump_version "2.3.4-rc+b1" none = some "2.3.4-rc+b1" ∧
    (((bump_version "2.3.4-rc+b1" (some "patch")).bind
        fun t => bump_version t (some "patch")).bind parse_version =
      some ⟨2, 3, 4 + 2, none, none⟩) := by
  exact C6_bump_version "2.3.4-rc+b1" ⟨2, 3, 4, some "rc", some "b1"⟩
    (by decide)

/-- C7: `parse_version` strips an optional leading `v` (prepending `v` to
a string that does not already start with `v` never changes the result),
fails exactly when the regex does not match the input, and in particular
rejects `1.2` (missing patch component) and `1.02.0` (leading zero) with
`ValueError`. -/
theorem C7_parse_rejects_invalid :
    (∀ s : String, s.toList.head? ≠ some 'v' →
      parse_version ("v" ++ s) = parse_version s) ∧
    parse_version "1.2" = none ∧
    parse_version "1.02.0" = none ∧
    (∀ s : String,
      parse_version s = none ↔ semver_regex_match s.toList = none) := by
  refine ⟨?_, by decide, by decide, ?_⟩
  · intro s hs
    have hv : ("v" ++ s).toList = 'v' :: s.toList := by
      show ("v" : String).data ++ s.data = 'v' :: s.data
      rfl
    unfold parse_version
    rw [hv]
    have h2 : semver_regex_match ('v' :: s.toList)
        = semver_regex_match s.toList := by
      unfold semver_regex_match stripV
      rw [if_pos (show ('v' :: s.toList).head? = some 'v' from rfl),
        if_neg hs]
      rfl
    rw [h2]
  · intro s
    unfold parse_version
    exact Option.map_eq_none'

theorem C7_parse_rejects_invalid_witness :
    parse_version ("v" ++ "1.2.3") = parse_version "1.2.3" ∧
    (parse_version "1.2" = none ↔
      semver_regex_match "1.2".toList = none) := by
  exact ⟨C7_parse_rejects_invalid.1 "1.2.3" (by decide),
    C7_parse_rejects_invalid.2.2.2 "1.2"⟩

end RelSync
